import Mathlib

/-!
# PointCloudRegistration: the `main` of `src/registration.cpp`

A shallow embedding of the command-line driver of the registration program:
the reading of the surface names (argument mode and interactive mode), the
file-extension check, the loading of the clouds, the two correspondence
exports, the application of the estimated transform and the saving of the
results.

Coordinates are kept in an arbitrary scalar type `α` with addition and
multiplication, so that nothing proved below depends on rounding. What `main`
prints on standard output is left out; the messages on `cerr` are kept.
-/

set_option autoImplicit false

namespace PointCloudRegistration

/-! ## Strings: `std::string::find` and `size_t` arithmetic -/

/-- The value `std::string::npos`, the largest `size_t` (64 bits). -/
def npos : Nat := 2 ^ 64 - 1

/-- Subtraction of two `size_t` values, wrapping around modulo `2 ^ 64`. -/
def size_t_sub (a b : Nat) : Nat := (a % 2 ^ 64 + (2 ^ 64 - b % 2 ^ 64)) % 2 ^ 64

/-- Search of the first occurrence of `pat` in `s`, counting positions from
`pos`; `npos` when `pat` does not occur. -/
def findFrom (pat : List Char) : List Char → Nat → Nat
  | [], pos => if pat.isPrefixOf [] then pos else npos
  | c :: s, pos => if pat.isPrefixOf (c :: s) then pos else findFrom pat s (pos + 1)

/-- The call `input.find(pat)` of `std::string`. -/
def find (input pat : String) : Nat := findFrom pat.toList input.toList 0

/-- The call `input.size()`. -/
def size (input : String) : Nat := input.toList.length

/-- The condition `input.find(".ply") != (input.size() - 4)` under which `main`
reports "Unknown file extension.", in both the argument loop and the prompt
loop. -/
def unknownFileExtension (input : String) : Bool :=
  find input ".ply" != size_t_sub (size input) 4

/-- The string ends with the four characters `.ply`. -/
def endsWithPly (input : String) : Bool := ".ply".toList.isSuffixOf input.toList

/-! ## Data model -/

/-- The type `Eigen::Vector3d`: a position, a normal or a colour. -/
structure Vector3d (α : Type) where
  x : α
  y : α
  z : α
deriving DecidableEq, Repr

/-- The type `Eigen::Matrix4d`; `T i j` is the entry of row `i` and column `j`. -/
abbrev Matrix4d (α : Type) := Fin 4 → Fin 4 → α

/-- The type `Eigen::Vector2i` of one correspondence: `c0` is `K[i](0)` and
`c1` is `K[i](1)`, both of C type `int`. -/
structure Vector2i where
  c0 : Int
  c1 : Int
deriving DecidableEq, Repr

/-- The class `open3d::PointCloud`. -/
structure PointCloud (α : Type) where
  points_ : List (Vector3d α)
  normals_ : List (Vector3d α)
  colors_ : List (Vector3d α)
deriving DecidableEq, Repr

/-- The first three rows of `T * (v.x, v.y, v.z, w)`. -/
def transformVector {α : Type} [Add α] [Mul α] (T : Matrix4d α) (v : Vector3d α) (w : α) :
    Vector3d α :=
  { x := T 0 0 * v.x + T 0 1 * v.y + T 0 2 * v.z + T 0 3 * w
    y := T 1 0 * v.x + T 1 1 * v.y + T 1 2 * v.z + T 1 3 * w
    z := T 2 0 * v.x + T 2 1 * v.y + T 2 2 * v.z + T 2 3 * w }

/-- The method `PointCloud::Transform` of Open3D: every point is replaced by
`T * (p, 1)` and every normal by `T * (n, 0)`; colours are kept. -/
def PointCloud.Transform {α : Type} [Add α] [Mul α] [Zero α] [One α]
    (pc : PointCloud α) (T : Matrix4d α) : PointCloud α :=
  { points_ := pc.points_.map fun p => transformVector T p 1
    normals_ := pc.normals_.map fun n => transformVector T n 0
    colors_ := pc.colors_ }

/-- The failures of the registration core named by the specification. -/
inductive RegistrationError where
  | InsufficientCorrespondences
  | DegenerateGeometry
deriving DecidableEq, Repr

/-- What `main` writes to `cerr`, one constructor per message. The argument
loop prints the number of the argument, the prompt loop does not. -/
inductive Message where
  | unknownFileExtension (i : Option Nat) (input : String)
  | fileNotFound (i : Option Nat) (path : String)
  | notImplemented
  | inputsNotLoaded
deriving DecidableEq, Repr

/-- How a run of `main` ends: with one of its two return values, with an
exception that leaves `main` (it has no handler), with an out-of-range
`points_[...]`, or never (the prompt loop at the end of standard input). -/
inductive Exit where
  | EXIT_SUCCESS
  | EXIT_FAILURE
  | uncaught (e : RegistrationError)
  | outOfRange
  | diverges
deriving DecidableEq, Repr

/-- Everything outside `registration.cpp` that `main` consults: the
environment variables, the words on standard input, the file system, the
Open3D reader and normal estimator, and the two core functions declared in
`fast_point_feature_histograms.h` and `fast_global_registration.h`. These two
headers are not among the sources: the functions are parameters, with the
arguments and results of their calls in `main`; they are pure functions of
their arguments, as section 6 of the specification says, and
`fastGlobalRegistration` either returns a matrix or throws. -/
structure Env (α : Type) where
  INPUT_PATH : Option String
  OUTPUT_PATH : Option String
  OUTPUT_NAME : Option String
  EXPORT_CORRESPONDENCES : Option String
  cin : List String
  is_file_exist : String → Bool
  ReadPointCloud : String → PointCloud α
  EstimateNormals : PointCloud α → PointCloud α
  computeCorrespondancePair : PointCloud α → PointCloud α → List Vector2i
  fastGlobalRegistration :
    List Vector2i → PointCloud α → PointCloud α → Except RegistrationError (Matrix4d α)

/-- The observable result of a run: how it ended, the messages on `cerr`, the
files given to `ReadPointCloud` in order, the vector `model` as it is when the
run ends, and the files given to `WritePointCloud` in order. -/
structure Outcome (α : Type) where
  exit : Exit
  cerr : List Message
  read : List String
  model : List (PointCloud α)
  written : List (String × PointCloud α)

/-! ## Environment variables -/

/-- The variable `input_path` of `main`. -/
def input_path {α : Type} (env : Env α) : String := env.INPUT_PATH.getD "../Testing/data/"

/-- The variable `output_path` of `main`. -/
def output_path {α : Type} (env : Env α) : String :=
  env.OUTPUT_PATH.getD "../Testing/logs/debugging/"

/-- The variable `output_name` of `main`. -/
def output_name {α : Type} (env : Env α) : String := env.OUTPUT_NAME.getD "result"

/-- The variable `export_corr` of `main`: initialised to `true`, and set to
`true` when `EXPORT_CORRESPONDENCES` is not defined. -/
def export_corr {α : Type} (env : Env α) : Bool :=
  match env.EXPORT_CORRESPONDENCES with
  | none => true
  | some _ => true

/-! ## Reading the names of the surfaces -/

/-- The loop of the argument mode, at argument number `i + 1`: the first
argument that fails a check ends the run, the others are appended to
`dataName` with `input_path` in front. -/
def argumentLoop {α : Type} (env : Env α) :
    Nat → List String → List String → Except Message (List String)
  | _, [], dataName => .ok dataName
  | i, input :: rest, dataName =>
    if unknownFileExtension input then
      .error (.unknownFileExtension (some (i + 1)) input)
    else if !env.is_file_exist (input_path env ++ input) then
      .error (.fileNotFound (some (i + 1)) (input_path env ++ input))
    else argumentLoop env (i + 1) rest (dataName ++ [input_path env ++ input])

/-- The result of the reading stage: the run has ended, or it goes on with
`dataName`. -/
inductive Names where
  | stop (exit : Exit) (cerr : List Message)
  | names (dataName : List String) (cerr : List Message)
deriving DecidableEq, Repr

/-- The loop of the interactive mode, entered with the word `input` just read
and the words `words` still waiting on standard input. A name that fails a
check is reported and skipped. When no word is left `cin >> input` fails and
leaves `input` as it is, so the loop never ends. -/
def promptLoop {α : Type} (env : Env α) :
    List String → String → List String → List Message → Names
  | words, input, dataName, cerr =>
    if input = "done" then .names dataName cerr
    else if input = "q" then .stop .EXIT_FAILURE cerr
    else
      let next : List String × List Message :=
        if unknownFileExtension input then
          (dataName, cerr ++ [.unknownFileExtension none input])
        else if !env.is_file_exist (input_path env ++ input) then
          (dataName, cerr ++ [.fileNotFound none (input_path env ++ input)])
        else (dataName ++ [input_path env ++ input], cerr)
      match words with
      | [] => .stop .diverges next.2
      | word :: words => promptLoop env words word next.1 next.2

/-- The stage "Read inputs and organize data names": `args` is
`argv[1], ..., argv[argc - 1]`. -/
def readNames {α : Type} (env : Env α) (args : List String) : Names :=
  match args with
  | _ :: _ :: _ =>
    match argumentLoop env 0 args [] with
    | .error msg => .stop .EXIT_FAILURE [msg]
    | .ok dataName => .names dataName []
  | [_] => .stop .EXIT_FAILURE [.notImplemented]
  | [] =>
    match env.cin with
    | [] => promptLoop env [] "" [] []
    | word :: words => promptLoop env words word [] []

/-! ## Loading, correspondences, registration, saving -/

/-- The element `v[k]` of a `std::vector` for an index `k` of type `int`;
`none` when `k` is not a valid index. -/
def at? {β : Type} (v : List β) (k : Int) : Option β :=
  if 0 ≤ k then v[k.toNat]? else none

/-- The loop that fills `correspondence_0` and `correspondence_1`; `none` when
some `points_[...]` is out of range. -/
def exportLoop {α : Type} (m0 m1 : PointCloud α) :
    List Vector2i → PointCloud α → PointCloud α → Option (PointCloud α × PointCloud α)
  | [], correspondence_0, correspondence_1 => some (correspondence_0, correspondence_1)
  | k :: K, correspondence_0, correspondence_1 =>
    match at? m0.points_ k.c0, at? m1.points_ k.c1 with
    | some p, some q =>
      exportLoop m0 m1 K
        { correspondence_0 with points_ := correspondence_0.points_ ++ [p] }
        { correspondence_1 with points_ := correspondence_1.points_ ++ [q] }
    | _, _ => none

/-- The two clouds of one correspondence export, starting from two empty
clouds. -/
def exportCorrespondences {α : Type} (K : List Vector2i) (m0 m1 : PointCloud α) :
    Option (PointCloud α × PointCloud α) :=
  exportLoop m0 m1 K ⟨[], [], []⟩ ⟨[], [], []⟩

/-- One block `if (export_corr) { ... }`: the files it writes, under the names
`name_0` and `name_1` in `output_path`. -/
def exportStep {α : Type} (env : Env α) (name_0 name_1 : String) (K : List Vector2i)
    (m0 m1 : PointCloud α) : Option (List (String × PointCloud α)) :=
  if export_corr env then
    match exportCorrespondences K m0 m1 with
    | none => none
    | some (correspondence_0, correspondence_1) =>
      some [(output_path env ++ name_0, correspondence_0),
            (output_path env ++ name_1, correspondence_1)]
  else some []

/-- The variable `resultName` for surface `i`. -/
def resultName {α : Type} (env : Env α) (i : Nat) : String :=
  output_path env ++ output_name env ++ "_" ++ toString i ++ ".ply"

/-- The loop "Save the results", at surface number `i`. -/
def saveLoop {α : Type} (env : Env α) : Nat → List (PointCloud α) → List (String × PointCloud α)
  | _, [] => []
  | i, m :: model => (resultName env i, m) :: saveLoop env (i + 1) model

/-- The vector `model` after the loops "Load the datafiles" and "Compute
normals". -/
def loadModel {α : Type} (env : Env α) (dataName : List String) : List (PointCloud α) :=
  (dataName.map env.ReadPointCloud).map env.EstimateNormals

/-- The part of `main` from the test `dataName.size() < 2` to the end. Two
names at least are needed; `model[0]` and `model[1]` are the first two loaded
clouds. -/
def registration {α : Type} [Add α] [Mul α] [Zero α] [One α] (env : Env α)
    (dataName : List String) (cerr : List Message) : Outcome α :=
  match dataName with
  | d0 :: d1 :: ds =>
    let m0 := env.EstimateNormals (env.ReadPointCloud d0)
    let m1 := env.EstimateNormals (env.ReadPointCloud d1)
    let rest := loadModel env ds
    let K := env.computeCorrespondancePair m0 m1
    match exportStep env "Corr_0.ply" "Corr_1.ply" K m0 m1 with
    | none => ⟨.outOfRange, cerr, dataName, m0 :: m1 :: rest, []⟩
    | some corr =>
      match env.fastGlobalRegistration K m0 m1 with
      | .error e => ⟨.uncaught e, cerr, dataName, m0 :: m1 :: rest, corr⟩
      | .ok T =>
        let model := m0 :: m1.Transform T :: rest
        match exportStep env "CorrT_0.ply" "CorrT_1.ply" K m0 (m1.Transform T) with
        | none => ⟨.outOfRange, cerr, dataName, model, corr⟩
        | some corrT =>
          ⟨.EXIT_SUCCESS, cerr, dataName, model, corr ++ corrT ++ saveLoop env 0 model⟩
  | _ => ⟨.EXIT_FAILURE, cerr ++ [.inputsNotLoaded], [], [], []⟩

/-- The function `main`, with `args` for `argv[1], ..., argv[argc - 1]`. -/
def main {α : Type} [Add α] [Mul α] [Zero α] [One α] (env : Env α) (args : List String) :
    Outcome α :=
  if args = ["-h"] ∨ args = ["--help"] then ⟨.EXIT_SUCCESS, [], [], [], []⟩
  else
    match readNames env args with
    | .stop exit cerr => ⟨exit, cerr, [], [], []⟩
    | .names dataName cerr => registration env dataName cerr

/-! ## The registration core, from the specification -/

/-- Modelled from the spec: the body of `fastGlobalRegistration`, declared in
`fast_global_registration.h` and absent from the sources. The specification
(sections 6, 7 and 8) says of it: "fails with `InsufficientCorrespondences` if
< 3 pairs, `DegenerateGeometry` if the linear system is singular at any
iteration". The numerical solver is the parameter `solve`, which answers `none`
when the system is singular. -/
def registerRigid {α : Type}
    (solve : List Vector2i → PointCloud α → PointCloud α → Option (Matrix4d α))
    (K : List Vector2i) (sourceCloud targetCloud : PointCloud α) :
    Except RegistrationError (Matrix4d α) :=
  if K.length < 3 then .error .InsufficientCorrespondences
  else
    match solve K sourceCloud targetCloud with
    | none => .error .DegenerateGeometry
    | some T => .ok T

/-! ## Vocabulary of the statements -/

/-- Every pair of `K` indexes a point of `m0` by its first component and a
point of `m1` by its second component. -/
abbrev InRange {α : Type} (K : List Vector2i) (m0 m1 : PointCloud α) : Prop :=
  ∀ k ∈ K, (0 ≤ k.c0 ∧ k.c0 < m0.points_.length) ∧ (0 ≤ k.c1 ∧ k.c1 < m1.points_.length)

/-- The cloud `c` has one point per pair of `K`, and its point `i` is the point
of `m` whose index is the component `sel` of the pair `K[i]`. -/
def ExportOf {α : Type} (K : List Vector2i) (sel : Vector2i → Int) (m c : PointCloud α) :
    Prop :=
  c.points_.length = K.length ∧
    ∀ (i : Nat) (h : i < K.length),
      ∃ p, at? m.points_ (sel (K.get ⟨i, h⟩)) = some p ∧ c.points_[i]? = some p

/-- An argument of the argument mode passes the extension check and the
file-existence check. -/
abbrev Passes {α : Type} (env : Env α) (input : String) : Prop :=
  unknownFileExtension input = false ∧ env.is_file_exist (input_path env ++ input) = true

/-- The message printed for argument number `i` when it fails a check. -/
def failureMessage {α : Type} (env : Env α) (i : Nat) (input : String) : Message :=
  if unknownFileExtension input then .unknownFileExtension (some i) input
  else .fileNotFound (some i) (input_path env ++ input)

/-! ## Test data -/

/-- A translation by `(tx, ty, tz)`. -/
def translation (tx ty tz : Int) : Matrix4d Int := fun i j =>
  if i = j then 1
  else if j = 3 then (if i = 0 then tx else if i = 1 then ty else if i = 2 then tz else 0)
  else 0

/-- The three corners of a triangle, moved by `(d, d, d)`. -/
def triangle (d : Int) : PointCloud Int :=
  ⟨[⟨d, d, d⟩, ⟨d + 1, d, d⟩, ⟨d, d + 1, d⟩], [], []⟩

/-- A run on two surfaces: `a.ply` holds a triangle at the origin and every
other file the same triangle moved by `(5, 5, 5)`; the three corners correspond
in order and the solver answers the translation by `(-5, -5, -5)`. -/
def testEnv : Env Int where
  INPUT_PATH := some ""
  OUTPUT_PATH := some ""
  OUTPUT_NAME := none
  EXPORT_CORRESPONDENCES := none
  cin := []
  is_file_exist := fun _ => true
  ReadPointCloud := fun name => if name = "a.ply" then triangle 0 else triangle 5
  EstimateNormals := fun pc => pc
  computeCorrespondancePair := fun _ _ => [⟨0, 0⟩, ⟨1, 1⟩, ⟨2, 2⟩]
  fastGlobalRegistration := fun _ _ _ => .ok (translation (-5) (-5) (-5))

/-- The same run with a correspondence estimator that finds one pair only and
the solver of the specification. -/
def testEnvFewPairs : Env Int :=
  { testEnv with
    computeCorrespondancePair := fun _ _ => [⟨0, 0⟩]
    fastGlobalRegistration := registerRigid fun _ _ _ => some (translation (-5) (-5) (-5)) }

/-! ## Lemmas on `find` -/

theorem findFrom_eq {pat s : List Char} {pos n : Nat} (h : findFrom pat s pos = n) :
    n = npos ∨ ∃ k, n = pos + k ∧ k ≤ s.length ∧ pat.isPrefixOf (s.drop k) = true := by
  induction s generalizing pos with
  | nil =>
    unfold findFrom at h
    split at h
    · rename_i hp
      exact Or.inr ⟨0, by omega, by simp, by simpa using hp⟩
    · exact Or.inl h.symm
  | cons c s ih =>
    unfold findFrom at h
    split at h
    · rename_i hp
      exact Or.inr ⟨0, by omega, by simp, by simpa using hp⟩
    · rcases ih h with h1 | ⟨k, hk, hle, hp⟩
      · exact Or.inl h1
      · exact Or.inr ⟨k + 1, by omega, by simp [hle], by simpa using hp⟩

/-- A name that the extension check lets through ends with `.ply`, unless it
has exactly three characters. -/
theorem endsWithPly_of_not_unknownFileExtension (input : String)
    (hsize : size input < 2 ^ 64) (h3 : size input ≠ 3)
    (h : unknownFileExtension input = false) : endsWithPly input = true := by
  have hfind : find input ".ply" = size_t_sub (size input) 4 := by
    simpa [unknownFileExtension] using h
  unfold find at hfind
  unfold size at hsize h3 hfind
  unfold endsWithPly
  have hpat : ".ply".toList.length = 4 := by decide
  rcases findFrom_eq hfind with hn | ⟨k, hk, hle, hp⟩
  · exfalso
    unfold size_t_sub npos at hn
    omega
  · have hk' : input.toList.length = k + 4 := by
      unfold size_t_sub at hk
      have hlen : 4 ≤ (input.toList.drop k).length := by
        have := (List.IsPrefix.length_le (List.isPrefixOf_iff_prefix.mp hp))
        omega
      rw [List.length_drop] at hlen
      omega
    have hpre := List.isPrefixOf_iff_prefix.mp hp
    have heq : ".ply".toList = input.toList.drop k :=
      List.IsPrefix.eq_of_length hpre (by rw [List.length_drop]; omega)
    rw [List.isSuffixOf_iff_suffix, heq]
    exact List.drop_suffix k _


/-! ## Lemmas on the correspondence export -/

theorem at?_eq_some_of_range {β : Type} (v : List β) (k : Int) (h0 : 0 ≤ k)
    (h1 : k < v.length) : ∃ p, at? v k = some p := by
  have hk : k.toNat < v.length := by omega
  exact ⟨v.get ⟨k.toNat, hk⟩, by simp [at?, h0, List.getElem?_eq_getElem hk]⟩

theorem exportLoop_eq {α : Type} (m0 m1 : PointCloud α) (K : List Vector2i)
    (hK : InRange K m0 m1) (a b : PointCloud α) :
    ∃ ps qs, exportLoop m0 m1 K a b =
        some ({ a with points_ := a.points_ ++ ps }, { b with points_ := b.points_ ++ qs }) ∧
      ps.map some = K.map (fun k => at? m0.points_ k.c0) ∧
      qs.map some = K.map (fun k => at? m1.points_ k.c1) := by
  induction K generalizing a b with
  | nil => exact ⟨[], [], by simp [exportLoop], rfl, rfl⟩
  | cons k K ih =>
    have hk := hK k (List.mem_cons_self k K)
    obtain ⟨p, hp⟩ := at?_eq_some_of_range m0.points_ k.c0 hk.1.1 hk.1.2
    obtain ⟨q, hq⟩ := at?_eq_some_of_range m1.points_ k.c1 hk.2.1 hk.2.2
    obtain ⟨ps, qs, h, hps, hqs⟩ :=
      ih (fun k' hk' => hK k' (List.mem_cons_of_mem k hk'))
        { a with points_ := a.points_ ++ [p] } { b with points_ := b.points_ ++ [q] }
    refine ⟨p :: ps, q :: qs, ?_, ?_, ?_⟩
    · simp only [exportLoop, hp, hq, h]
      simp
    · simp [hps, hp]
    · simp [hqs, hq]

theorem exportCorrespondences_eq {α : Type} (K : List Vector2i) (m0 m1 : PointCloud α)
    (hK : InRange K m0 m1) :
    ∃ ps qs, exportCorrespondences K m0 m1 = some (⟨ps, [], []⟩, ⟨qs, [], []⟩) ∧
      ps.map some = K.map (fun k => at? m0.points_ k.c0) ∧
      qs.map some = K.map (fun k => at? m1.points_ k.c1) := by
  obtain ⟨ps, qs, h, hps, hqs⟩ := exportLoop_eq m0 m1 K hK ⟨[], [], []⟩ ⟨[], [], []⟩
  exact ⟨ps, qs, by simpa [exportCorrespondences] using h, hps, hqs⟩

theorem exportOf_of_map {α : Type} (K : List Vector2i) (sel : Vector2i → Int)
    (m : PointCloud α) (ps : List (Vector3d α))
    (h : ps.map some = K.map (fun k => at? m.points_ (sel k))) :
    ExportOf K sel m ⟨ps, [], []⟩ := by
  have hlen : ps.length = K.length := by
    have := congrArg List.length h
    simpa using this
  refine ⟨hlen, fun i hi => ?_⟩
  have hi' : i < ps.length := by omega
  refine ⟨ps.get ⟨i, hi'⟩, ?_, by simp [List.getElem?_eq_getElem hi']⟩
  have := congrArg (fun l => l[i]?) h
  simp only [List.getElem?_map, List.getElem?_eq_getElem hi', List.getElem?_eq_getElem hi,
    Option.map_some'] at this
  simpa using this.symm

theorem inRange_transform {α : Type} [Add α] [Mul α] [Zero α] [One α] (K : List Vector2i)
    (m0 m1 : PointCloud α) (T : Matrix4d α) (hK : InRange K m0 m1) :
    InRange K m0 (m1.Transform T) := by
  intro k hk
  simpa [PointCloud.Transform] using hK k hk


theorem range_of_at?_eq_some {β : Type} (v : List β) (k : Int) (p : β)
    (h : at? v k = some p) : 0 ≤ k ∧ k < v.length := by
  unfold at? at h
  split at h
  · rename_i h0
    have := (List.getElem?_eq_some.mp h).1
    omega
  · cases h

theorem inRange_of_exportLoop {α : Type} (m0 m1 : PointCloud α) (K : List Vector2i)
    (a b : PointCloud α) (r : PointCloud α × PointCloud α)
    (h : exportLoop m0 m1 K a b = some r) : InRange K m0 m1 := by
  induction K generalizing a b with
  | nil => intro k hk; cases hk
  | cons k K ih =>
    unfold exportLoop at h
    split at h
    · rename_i p q hp hq
      intro k' hk'
      rcases List.mem_cons.mp hk' with rfl | hk'
      · exact ⟨range_of_at?_eq_some _ _ _ hp, range_of_at?_eq_some _ _ _ hq⟩
      · exact ih _ _ h k' hk'
    · cases h

theorem exportStep_eq {α : Type} (env : Env α) (name_0 name_1 : String) (K : List Vector2i)
    (m0 m1 : PointCloud α) :
    exportStep env name_0 name_1 K m0 m1 =
      (exportCorrespondences K m0 m1).map fun c =>
        [(output_path env ++ name_0, c.1), (output_path env ++ name_1, c.2)] := by
  have he : export_corr env = true := by
    unfold export_corr
    cases env.EXPORT_CORRESPONDENCES <;> rfl
  unfold exportStep
  rw [if_pos he]
  cases exportCorrespondences K m0 m1 <;> rfl

/-- A run of the second part of `main` on valid correspondences for which the
solver answers `T`. -/
theorem registration_ok {α : Type} [Add α] [Mul α] [Zero α] [One α] (env : Env α)
    (d0 d1 : String) (ds : List String) (cerr : List Message) (T : Matrix4d α)
    (hK : InRange
      (env.computeCorrespondancePair (env.EstimateNormals (env.ReadPointCloud d0))
        (env.EstimateNormals (env.ReadPointCloud d1)))
      (env.EstimateNormals (env.ReadPointCloud d0))
      (env.EstimateNormals (env.ReadPointCloud d1)))
    (hT : env.fastGlobalRegistration
      (env.computeCorrespondancePair (env.EstimateNormals (env.ReadPointCloud d0))
        (env.EstimateNormals (env.ReadPointCloud d1)))
      (env.EstimateNormals (env.ReadPointCloud d0))
      (env.EstimateNormals (env.ReadPointCloud d1)) = .ok T) :
    ∃ ps qs qt,
      ps.map some =
        (env.computeCorrespondancePair (env.EstimateNormals (env.ReadPointCloud d0))
          (env.EstimateNormals (env.ReadPointCloud d1))).map
          (fun k => at? (env.EstimateNormals (env.ReadPointCloud d0)).points_ k.c0) ∧
      qs.map some =
        (env.computeCorrespondancePair (env.EstimateNormals (env.ReadPointCloud d0))
          (env.EstimateNormals (env.ReadPointCloud d1))).map
          (fun k => at? (env.EstimateNormals (env.ReadPointCloud d1)).points_ k.c1) ∧
      qt.map some =
        (env.computeCorrespondancePair (env.EstimateNormals (env.ReadPointCloud d0))
          (env.EstimateNormals (env.ReadPointCloud d1))).map
          (fun k => at? ((env.EstimateNormals (env.ReadPointCloud d1)).Transform T).points_ k.c1) ∧
      registration env (d0 :: d1 :: ds) cerr =
        ⟨.EXIT_SUCCESS, cerr, d0 :: d1 :: ds,
          env.EstimateNormals (env.ReadPointCloud d0) ::
            (env.EstimateNormals (env.ReadPointCloud d1)).Transform T :: loadModel env ds,
          [(output_path env ++ "Corr_0.ply", ⟨ps, [], []⟩),
            (output_path env ++ "Corr_1.ply", ⟨qs, [], []⟩),
            (output_path env ++ "CorrT_0.ply", ⟨ps, [], []⟩),
            (output_path env ++ "CorrT_1.ply", ⟨qt, [], []⟩)] ++
          saveLoop env 0 (env.EstimateNormals (env.ReadPointCloud d0) ::
            (env.EstimateNormals (env.ReadPointCloud d1)).Transform T :: loadModel env ds)⟩ := by
  obtain ⟨ps, qs, h1, hps, hqs⟩ := exportCorrespondences_eq _ _ _ hK
  obtain ⟨ps', qt, h2, hps', hqt⟩ :=
    exportCorrespondences_eq _ _ _ (inRange_transform _ _ _ T hK)
  have hpp : ps' = ps :=
    List.map_injective_iff.mpr (Option.some_injective _) (hps'.trans hps.symm)
  subst hpp
  refine ⟨ps', qs, qt, hps, hqs, hqt, ?_⟩
  simp only [registration, exportStep_eq, h1, h2, hT, Option.map_some']
  simp

/-- A run of the second part of `main` on valid correspondences for which the
solver throws `e`. -/
theorem registration_error {α : Type} [Add α] [Mul α] [Zero α] [One α] (env : Env α)
    (d0 d1 : String) (ds : List String) (cerr : List Message) (e : RegistrationError)
    (hK : InRange
      (env.computeCorrespondancePair (env.EstimateNormals (env.ReadPointCloud d0))
        (env.EstimateNormals (env.ReadPointCloud d1)))
      (env.EstimateNormals (env.ReadPointCloud d0))
      (env.EstimateNormals (env.ReadPointCloud d1)))
    (hT : env.fastGlobalRegistration
      (env.computeCorrespondancePair (env.EstimateNormals (env.ReadPointCloud d0))
        (env.EstimateNormals (env.ReadPointCloud d1)))
      (env.EstimateNormals (env.ReadPointCloud d0))
      (env.EstimateNormals (env.ReadPointCloud d1)) = .error e) :
    ∃ ps qs,
      exportCorrespondences
        (env.computeCorrespondancePair (env.EstimateNormals (env.ReadPointCloud d0))
          (env.EstimateNormals (env.ReadPointCloud d1)))
        (env.EstimateNormals (env.ReadPointCloud d0))
        (env.EstimateNormals (env.ReadPointCloud d1)) = some (⟨ps, [], []⟩, ⟨qs, [], []⟩) ∧
      registration env (d0 :: d1 :: ds) cerr =
        ⟨.uncaught e, cerr, d0 :: d1 :: ds,
          env.EstimateNormals (env.ReadPointCloud d0) ::
            env.EstimateNormals (env.ReadPointCloud d1) :: loadModel env ds,
          [(output_path env ++ "Corr_0.ply", ⟨ps, [], []⟩),
            (output_path env ++ "Corr_1.ply", ⟨qs, [], []⟩)]⟩ := by
  obtain ⟨ps, qs, h1, -, -⟩ := exportCorrespondences_eq _ _ _ hK
  refine ⟨ps, qs, h1, ?_⟩
  simp only [registration, exportStep_eq, h1, hT, Option.map_some']

/-- A successful run of the second part of `main` had valid correspondences and
a solver that answered. -/
theorem registration_success {α : Type} [Add α] [Mul α] [Zero α] [One α] (env : Env α)
    (d0 d1 : String) (ds : List String) (cerr : List Message)
    (h : (registration env (d0 :: d1 :: ds) cerr).exit = .EXIT_SUCCESS) :
    InRange
      (env.computeCorrespondancePair (env.EstimateNormals (env.ReadPointCloud d0))
        (env.EstimateNormals (env.ReadPointCloud d1)))
      (env.EstimateNormals (env.ReadPointCloud d0))
      (env.EstimateNormals (env.ReadPointCloud d1)) ∧
    ∃ T, env.fastGlobalRegistration
      (env.computeCorrespondancePair (env.EstimateNormals (env.ReadPointCloud d0))
        (env.EstimateNormals (env.ReadPointCloud d1)))
      (env.EstimateNormals (env.ReadPointCloud d0))
      (env.EstimateNormals (env.ReadPointCloud d1)) = .ok T := by
  simp only [registration, exportStep_eq] at h
  split at h
  · cases h
  · rename_i corr hcorr
    constructor
    · cases hc : exportCorrespondences
        (env.computeCorrespondancePair (env.EstimateNormals (env.ReadPointCloud d0))
          (env.EstimateNormals (env.ReadPointCloud d1)))
        (env.EstimateNormals (env.ReadPointCloud d0))
        (env.EstimateNormals (env.ReadPointCloud d1)) with
      | none => rw [hc] at hcorr; cases hcorr
      | some r => exact inRange_of_exportLoop _ _ _ _ _ r hc
    · split at h
      · cases h
      · rename_i T hT
        exact ⟨T, hT⟩

/-- The names read by the second part of `main`. -/
theorem registration_read {α : Type} [Add α] [Mul α] [Zero α] [One α] (env : Env α)
    (dataName : List String) (cerr : List Message) (d : String) (ds : List String)
    (h : (registration env dataName cerr).read = d :: ds) :
    dataName = d :: ds ∧ ∃ d1 ds', ds = d1 :: ds' := by
  match dataName, h with
  | [], h => simp [registration] at h
  | [_], h => simp [registration] at h
  | d0 :: d1 :: ds', h =>
    have : (registration env (d0 :: d1 :: ds') cerr).read = d0 :: d1 :: ds' := by
      simp only [registration]
      split
      · rfl
      · split
        · rfl
        · split <;> rfl
    rw [this] at h
    injection h with h1 h2
    subst h1 h2
    exact ⟨rfl, d1, ds', rfl⟩

/-- A run of `main` that read files is a run of its second part on the names of
these files. -/
theorem main_read {α : Type} [Add α] [Mul α] [Zero α] [One α] (env : Env α)
    (args : List String) (d : String) (ds : List String)
    (h : (main env args).read = d :: ds) :
    ∃ cerr d1 ds', ds = d1 :: ds' ∧ readNames env args = .names (d :: ds) cerr ∧
      main env args = registration env (d :: ds) cerr := by
  unfold main at h ⊢
  split at h
  · cases h
  · rename_i hhelp
    rw [if_neg hhelp]
    split at h
    · cases h
    · rename_i dataName cerr hnames
      obtain ⟨h1, d1, ds', h2⟩ := registration_read env dataName cerr d ds h
      subst h1
      exact ⟨cerr, d1, ds', h2, hnames, rfl⟩


/-! ## The cloud that is transformed -/

/-- Claim C1, as stated, fails. In the test run on `a.ply` and `b.ply` the
solver answers the translation `T` by `(-5, -5, -5)`; the run succeeds, the
first cloud `model[0]` (first cloud argument of the solver) is still the loaded
triangle although `T` would move it, and it is the second cloud `model[1]` that
has been replaced by its image under `T`. -/
theorem transform_not_applied_to_first_cloud :
    (main testEnv ["a.ply", "b.ply"]).exit = .EXIT_SUCCESS ∧
    loadModel testEnv (main testEnv ["a.ply", "b.ply"]).read = [triangle 0, triangle 5] ∧
    testEnv.fastGlobalRegistration
        (testEnv.computeCorrespondancePair (triangle 0) (triangle 5)) (triangle 0) (triangle 5) =
      .ok (translation (-5) (-5) (-5)) ∧
    (main testEnv ["a.ply", "b.ply"]).model =
      [triangle 0, (triangle 5).Transform (translation (-5) (-5) (-5))] ∧
    (triangle 0).Transform (translation (-5) (-5) (-5)) ≠ triangle 0 ∧
    (triangle 5).Transform (translation (-5) (-5) (-5)) ≠ triangle 5 := by
  refine ⟨by decide, by decide, rfl, by decide, by decide, by decide⟩

/-- Claim C1, amended. In every successful run of `main` that loaded clouds,
the transform `T` returned by the solver is applied to `model[1]`, the second
cloud argument of the solver, whose points are indexed by the second component
`K[i](1)` of the correspondences (the export `CorrT_1` reads the transformed
cloud at these indices); `model[0]`, the first cloud argument, indexed by the
first component `K[i](0)`, is left as it was. -/
theorem transform_applied_to_second_cloud {α : Type} [Add α] [Mul α] [Zero α] [One α]
    (env : Env α) (args : List String)
    (hs : (main env args).exit = .EXIT_SUCCESS) (hr : (main env args).read ≠ []) :
    ∃ m0 m1 rest T t0 t1,
      loadModel env (main env args).read = m0 :: m1 :: rest ∧
      env.fastGlobalRegistration (env.computeCorrespondancePair m0 m1) m0 m1 = .ok T ∧
      (main env args).model = m0 :: m1.Transform T :: rest ∧
      (output_path env ++ "CorrT_0.ply", t0) ∈ (main env args).written ∧
      (output_path env ++ "CorrT_1.ply", t1) ∈ (main env args).written ∧
      ExportOf (env.computeCorrespondancePair m0 m1) Vector2i.c0 m0 t0 ∧
      ExportOf (env.computeCorrespondancePair m0 m1) Vector2i.c1 (m1.Transform T) t1 := by
  obtain ⟨d, ds, hd⟩ := List.exists_cons_of_ne_nil hr
  obtain ⟨cerr, d1, ds', rfl, -, hmain⟩ := main_read env args d ds hd
  rw [hmain] at hs
  obtain ⟨hK, T, hT⟩ := registration_success env d d1 ds' cerr hs
  obtain ⟨ps, qs, qt, hps, -, hqt, hreg⟩ := registration_ok env d d1 ds' cerr T hK hT
  refine ⟨_, _, loadModel env ds', T, ⟨ps, [], []⟩, ⟨qt, [], []⟩, ?_, hT, ?_, ?_, ?_,
    exportOf_of_map _ Vector2i.c0 _ ps hps, exportOf_of_map _ Vector2i.c1 _ qt hqt⟩
  · rw [hd]; rfl
  · rw [hmain, hreg]
  · rw [hmain, hreg]; simp
  · rw [hmain, hreg]; simp

/-- The amended claim C1 in the test run. -/
theorem transform_applied_to_second_cloud_witness :
    (main testEnv ["a.ply", "b.ply"]).exit = .EXIT_SUCCESS ∧
    (main testEnv ["a.ply", "b.ply"]).read ≠ [] ∧
    ∃ m0 m1 rest T t0 t1,
      loadModel testEnv (main testEnv ["a.ply", "b.ply"]).read = m0 :: m1 :: rest ∧
      testEnv.fastGlobalRegistration (testEnv.computeCorrespondancePair m0 m1) m0 m1 = .ok T ∧
      (main testEnv ["a.ply", "b.ply"]).model = m0 :: m1.Transform T :: rest ∧
      (output_path testEnv ++ "CorrT_0.ply", t0) ∈ (main testEnv ["a.ply", "b.ply"]).written ∧
      (output_path testEnv ++ "CorrT_1.ply", t1) ∈ (main testEnv ["a.ply", "b.ply"]).written ∧
      ExportOf (testEnv.computeCorrespondancePair m0 m1) Vector2i.c0 m0 t0 ∧
      ExportOf (testEnv.computeCorrespondancePair m0 m1) Vector2i.c1 (m1.Transform T) t1 :=
  ⟨by decide, by decide,
    transform_applied_to_second_cloud testEnv ["a.ply", "b.ply"] (by decide) (by decide)⟩


/-! ## The save loop -/

theorem saveLoop_getElem? {α : Type} (env : Env α) (model : List (PointCloud α)) (i j : Nat) :
    (saveLoop env i model)[j]? = model[j]?.map fun m => (resultName env (i + j), m) := by
  induction model generalizing i j with
  | nil => simp [saveLoop]
  | cons m model ih =>
    cases j with
    | zero => simp [saveLoop]
    | succ j =>
      simp only [saveLoop, List.getElem?_cons_succ, ih]
      have : i + 1 + j = i + (j + 1) := by omega
      rw [this]

theorem saveLoop_length {α : Type} (env : Env α) (model : List (PointCloud α)) (i : Nat) :
    (saveLoop env i model).length = model.length := by
  induction model generalizing i with
  | nil => rfl
  | cons m model ih => simp [saveLoop, ih]

theorem loadModel_getElem? {α : Type} (env : Env α) (dataName : List String) (i : Nat) :
    (loadModel env dataName)[i]? =
      dataName[i]?.map fun d => env.EstimateNormals (env.ReadPointCloud d) := by
  simp only [loadModel, List.getElem?_map]
  cases dataName[i]? <;> rfl

/-! ## The results -/

/-- Claim C3. In every successful run of `main` that loaded clouds, at least
two were loaded; the files written are the four correspondence exports followed
by one result per loaded cloud, result `i` under the name of surface `i`; if
`EstimateNormals` keeps the positions, the positions of result `i` are the
positions loaded for cloud `i`, in the same order, for every `i` other than 1,
and the positions of result 1 are the images under `T` of the positions loaded
for cloud 1. The correspondences and `T` are the values of
`computeCorrespondancePair` and `fastGlobalRegistration` at clouds 0 and 1. -/
theorem results_keep_loaded_positions {α : Type} [Add α] [Mul α] [Zero α] [One α]
    (env : Env α) (args : List String)
    (hs : (main env args).exit = .EXIT_SUCCESS) (hr : (main env args).read ≠ [])
    (hN : ∀ pc, (env.EstimateNormals pc).points_ = pc.points_) :
    2 ≤ (main env args).read.length ∧
    ∃ m0 m1 rest T exports results,
      loadModel env (main env args).read = m0 :: m1 :: rest ∧
      env.fastGlobalRegistration (env.computeCorrespondancePair m0 m1) m0 m1 = .ok T ∧
      (main env args).written = exports ++ results ∧
      exports.map Prod.fst =
        [output_path env ++ "Corr_0.ply", output_path env ++ "Corr_1.ply",
          output_path env ++ "CorrT_0.ply", output_path env ++ "CorrT_1.ply"] ∧
      results.length = (main env args).read.length ∧
      ∀ (i : Nat) (name : String), (main env args).read[i]? = some name →
        ∃ pc, results[i]? = some (resultName env i, pc) ∧
          (i ≠ 1 → pc.points_ = (env.ReadPointCloud name).points_) ∧
          (i = 1 → pc.points_ =
            (env.ReadPointCloud name).points_.map fun p => transformVector T p 1) := by
  obtain ⟨d, ds, hd⟩ := List.exists_cons_of_ne_nil hr
  obtain ⟨cerr, d1, ds', rfl, -, hmain⟩ := main_read env args d ds hd
  rw [hmain] at hs
  obtain ⟨hK, T, hT⟩ := registration_success env d d1 ds' cerr hs
  obtain ⟨ps, qs, qt, -, -, -, hreg⟩ := registration_ok env d d1 ds' cerr T hK hT
  refine ⟨by rw [hd]; simp, _, _, loadModel env ds', T,
    [(output_path env ++ "Corr_0.ply", ⟨ps, [], []⟩),
      (output_path env ++ "Corr_1.ply", ⟨qs, [], []⟩),
      (output_path env ++ "CorrT_0.ply", ⟨ps, [], []⟩),
      (output_path env ++ "CorrT_1.ply", ⟨qt, [], []⟩)],
    saveLoop env 0 (env.EstimateNormals (env.ReadPointCloud d) ::
      (env.EstimateNormals (env.ReadPointCloud d1)).Transform T :: loadModel env ds'),
    ?_, hT, ?_, ?_, ?_, ?_⟩
  · rw [hd]; rfl
  · rw [hmain, hreg]
  · simp
  · rw [hd]; simp [saveLoop_length, loadModel]
  · intro i name hname
    rw [hd] at hname
    match i, hname with
    | 0, hname =>
      simp only [List.getElem?_cons_zero, Option.some.injEq] at hname
      refine ⟨env.EstimateNormals (env.ReadPointCloud name), ?_, fun _ => hN _,
        fun h => absurd h (by decide)⟩
      subst hname
      simp [saveLoop]
    | 1, hname =>
      simp only [List.getElem?_cons_succ, List.getElem?_cons_zero, Option.some.injEq] at hname
      refine ⟨(env.EstimateNormals (env.ReadPointCloud name)).Transform T, ?_,
        fun h => absurd rfl h, fun _ => by simp [PointCloud.Transform, hN]⟩
      subst hname
      simp [saveLoop]
    | i + 2, hname =>
      simp only [List.getElem?_cons_succ] at hname
      refine ⟨env.EstimateNormals (env.ReadPointCloud name), ?_, fun _ => hN _,
        fun h => absurd h (by omega)⟩
      simp only [saveLoop, List.getElem?_cons_succ, saveLoop_getElem?, loadModel_getElem?, hname,
        Option.map_some']
      have : 0 + 1 + 1 + i = i + 2 := by omega
      rw [this]

/-- Claim C3 in the test run. -/
theorem results_keep_loaded_positions_witness :
    (main testEnv ["a.ply", "b.ply"]).exit = .EXIT_SUCCESS ∧
    (main testEnv ["a.ply", "b.ply"]).read ≠ [] ∧
    (∀ pc, (testEnv.EstimateNormals pc).points_ = pc.points_) ∧
    2 ≤ (main testEnv ["a.ply", "b.ply"]).read.length ∧
    ∃ m0 m1 rest T exports results,
      loadModel testEnv (main testEnv ["a.ply", "b.ply"]).read = m0 :: m1 :: rest ∧
      testEnv.fastGlobalRegistration (testEnv.computeCorrespondancePair m0 m1) m0 m1 = .ok T ∧
      (main testEnv ["a.ply", "b.ply"]).written = exports ++ results ∧
      exports.map Prod.fst =
        [output_path testEnv ++ "Corr_0.ply", output_path testEnv ++ "Corr_1.ply",
          output_path testEnv ++ "CorrT_0.ply", output_path testEnv ++ "CorrT_1.ply"] ∧
      results.length = (main testEnv ["a.ply", "b.ply"]).read.length ∧
      ∀ (i : Nat) (name : String), (main testEnv ["a.ply", "b.ply"]).read[i]? = some name →
        ∃ pc, results[i]? = some (resultName testEnv i, pc) ∧
          (i ≠ 1 → pc.points_ = (testEnv.ReadPointCloud name).points_) ∧
          (i = 1 → pc.points_ =
            (testEnv.ReadPointCloud name).points_.map fun p => transformVector T p 1) :=
  ⟨by decide, by decide, fun _ => rfl,
    results_keep_loaded_positions testEnv ["a.ply", "b.ply"] (by decide) (by decide)
      (fun _ => rfl)⟩


/-! ## The correspondence exports -/

/-- Claim C4. In every run of `main` that loaded clouds and whose
correspondence list `K` is in range for `model[0]` and `model[1]` (the first
component of every pair is an index of `model[0].points_`, the second an index
of `model[1].points_`), the first two files written are `Corr_0` and `Corr_1`;
each has one point per pair of `K`, point `i` of `Corr_0` being `model[0].points_[K[i](0)]` and point `i` of
`Corr_1` being `model[1].points_[K[i](1)]`. When the solver answers `T`, the
next two files are `CorrT_0` and `CorrT_1`, read in the same way from the
clouds as they are after `model[1].Transform(T)`, and `CorrT_0` is `Corr_0`. -/
theorem exports_are_aligned {α : Type} [Add α] [Mul α] [Zero α] [One α]
    (env : Env α) (args : List String) (m0 m1 : PointCloud α) (rest : List (PointCloud α))
    (hm : loadModel env (main env args).read = m0 :: m1 :: rest)
    (hK : InRange (env.computeCorrespondancePair m0 m1) m0 m1) :
    ∃ c0 c1,
      (main env args).written.take 2 =
        [(output_path env ++ "Corr_0.ply", c0), (output_path env ++ "Corr_1.ply", c1)] ∧
      ExportOf (env.computeCorrespondancePair m0 m1) Vector2i.c0 m0 c0 ∧
      ExportOf (env.computeCorrespondancePair m0 m1) Vector2i.c1 m1 c1 ∧
      ∀ T, env.fastGlobalRegistration (env.computeCorrespondancePair m0 m1) m0 m1 = .ok T →
        ∃ t0 t1,
          (main env args).model = m0 :: m1.Transform T :: rest ∧
          ((main env args).written.drop 2).take 2 =
            [(output_path env ++ "CorrT_0.ply", t0), (output_path env ++ "CorrT_1.ply", t1)] ∧
          ExportOf (env.computeCorrespondancePair m0 m1) Vector2i.c0 m0 t0 ∧
          ExportOf (env.computeCorrespondancePair m0 m1) Vector2i.c1 (m1.Transform T) t1 ∧
          t0 = c0 := by
  have hr : (main env args).read ≠ [] := by
    intro h
    rw [h] at hm
    cases hm
  obtain ⟨d, ds, hd⟩ := List.exists_cons_of_ne_nil hr
  obtain ⟨cerr, d1, ds', rfl, -, hmain⟩ := main_read env args d ds hd
  rw [hd] at hm
  simp only [loadModel, List.map_cons, List.cons.injEq] at hm
  obtain ⟨rfl, rfl, hrest⟩ := hm
  obtain ⟨ps, qs, hex, hps, hqs⟩ := exportCorrespondences_eq _ _ _ hK
  refine ⟨⟨ps, [], []⟩, ⟨qs, [], []⟩, ?_, exportOf_of_map _ Vector2i.c0 _ ps hps,
    exportOf_of_map _ Vector2i.c1 _ qs hqs, ?_⟩
  · cases hT : env.fastGlobalRegistration
        (env.computeCorrespondancePair (env.EstimateNormals (env.ReadPointCloud d))
          (env.EstimateNormals (env.ReadPointCloud d1)))
        (env.EstimateNormals (env.ReadPointCloud d))
        (env.EstimateNormals (env.ReadPointCloud d1)) with
    | error e =>
      obtain ⟨ps', qs', hex', hreg⟩ := registration_error env d d1 ds' cerr e hK hT
      rw [hex] at hex'
      simp only [Option.some.injEq, Prod.mk.injEq, PointCloud.mk.injEq, and_true] at hex'
      obtain ⟨rfl, rfl⟩ := hex'
      rw [hmain, hreg]
      rfl
    | ok T =>
      obtain ⟨ps', qs', qt, hps', hqs', -, hreg⟩ := registration_ok env d d1 ds' cerr T hK hT
      have h1 : ps' = ps :=
        List.map_injective_iff.mpr (Option.some_injective _) (hps'.trans hps.symm)
      have h2 : qs' = qs :=
        List.map_injective_iff.mpr (Option.some_injective _) (hqs'.trans hqs.symm)
      subst h1 h2
      rw [hmain, hreg]
      rfl
  · intro T hT
    obtain ⟨ps', qs', qt, hps', -, hqt, hreg⟩ := registration_ok env d d1 ds' cerr T hK hT
    have h1 : ps' = ps :=
      List.map_injective_iff.mpr (Option.some_injective _) (hps'.trans hps.symm)
    subst h1
    refine ⟨⟨ps', [], []⟩, ⟨qt, [], []⟩, ?_, ?_, exportOf_of_map _ Vector2i.c0 _ ps' hps,
      exportOf_of_map _ Vector2i.c1 _ qt hqt, rfl⟩
    · rw [hmain, hreg, ← hrest]
      rfl
    · rw [hmain, hreg]
      rfl

/-- Claim C4 in the test run. -/
theorem exports_are_aligned_witness :
    loadModel testEnv (main testEnv ["a.ply", "b.ply"]).read = triangle 0 :: triangle 5 :: [] ∧
    InRange (testEnv.computeCorrespondancePair (triangle 0) (triangle 5))
      (triangle 0) (triangle 5) ∧
    ∃ c0 c1,
      (main testEnv ["a.ply", "b.ply"]).written.take 2 =
        [(output_path testEnv ++ "Corr_0.ply", c0),
          (output_path testEnv ++ "Corr_1.ply", c1)] ∧
      ExportOf (testEnv.computeCorrespondancePair (triangle 0) (triangle 5)) Vector2i.c0
        (triangle 0) c0 ∧
      ExportOf (testEnv.computeCorrespondancePair (triangle 0) (triangle 5)) Vector2i.c1
        (triangle 5) c1 ∧
      ∀ T, testEnv.fastGlobalRegistration
          (testEnv.computeCorrespondancePair (triangle 0) (triangle 5)) (triangle 0)
          (triangle 5) = .ok T →
        ∃ t0 t1,
          (main testEnv ["a.ply", "b.ply"]).model =
            triangle 0 :: (triangle 5).Transform T :: [] ∧
          ((main testEnv ["a.ply", "b.ply"]).written.drop 2).take 2 =
            [(output_path testEnv ++ "CorrT_0.ply", t0),
              (output_path testEnv ++ "CorrT_1.ply", t1)] ∧
          ExportOf (testEnv.computeCorrespondancePair (triangle 0) (triangle 5)) Vector2i.c0
            (triangle 0) t0 ∧
          ExportOf (testEnv.computeCorrespondancePair (triangle 0) (triangle 5)) Vector2i.c1
            ((triangle 5).Transform T) t1 ∧
          t0 = c0 :=
  ⟨by decide, by decide,
    exports_are_aligned testEnv ["a.ply", "b.ply"] (triangle 0) (triangle 5) []
      (by decide) (by decide)⟩

/-! ## Too few correspondences -/

/-- Claim C2, for the solver of the specification. In every run of `main` that
loaded clouds, whose solver is `registerRigid` and whose correspondence list
`K` is in range, the run ends with the exception `InsufficientCorrespondences`
exactly when `K` has fewer than 3 pairs; in that case no cloud has been
transformed (`model` is as loaded), and the only files written are the two
correspondence exports `Corr_0` and `Corr_1` of the loaded clouds: no result
file is written. -/
theorem insufficient_correspondences_iff {α : Type} [Add α] [Mul α] [Zero α] [One α]
    (env : Env α) (args : List String)
    (solve : List Vector2i → PointCloud α → PointCloud α → Option (Matrix4d α))
    (m0 m1 : PointCloud α) (rest : List (PointCloud α))
    (hsolver : env.fastGlobalRegistration = registerRigid solve)
    (hm : loadModel env (main env args).read = m0 :: m1 :: rest)
    (hK : InRange (env.computeCorrespondancePair m0 m1) m0 m1) :
    ((main env args).exit = .uncaught .InsufficientCorrespondences ↔
      (env.computeCorrespondancePair m0 m1).length < 3) ∧
    ((env.computeCorrespondancePair m0 m1).length < 3 →
      (main env args).model = m0 :: m1 :: rest ∧
      ∃ c0 c1, exportCorrespondences (env.computeCorrespondancePair m0 m1) m0 m1 = some (c0, c1) ∧
        (main env args).written =
          [(output_path env ++ "Corr_0.ply", c0), (output_path env ++ "Corr_1.ply", c1)]) := by
  have hr : (main env args).read ≠ [] := by
    intro h
    rw [h] at hm
    cases hm
  obtain ⟨d, ds, hd⟩ := List.exists_cons_of_ne_nil hr
  obtain ⟨cerr, d1, ds', rfl, -, hmain⟩ := main_read env args d ds hd
  rw [hd] at hm
  simp only [loadModel, List.map_cons, List.cons.injEq] at hm
  obtain ⟨rfl, rfl, hrest⟩ := hm
  by_cases hlt : (env.computeCorrespondancePair (env.EstimateNormals (env.ReadPointCloud d))
      (env.EstimateNormals (env.ReadPointCloud d1))).length < 3
  · have hT : env.fastGlobalRegistration
        (env.computeCorrespondancePair (env.EstimateNormals (env.ReadPointCloud d))
          (env.EstimateNormals (env.ReadPointCloud d1)))
        (env.EstimateNormals (env.ReadPointCloud d))
        (env.EstimateNormals (env.ReadPointCloud d1)) = .error .InsufficientCorrespondences := by
      rw [hsolver, registerRigid, if_pos hlt]
    obtain ⟨ps, qs, hex, hreg⟩ := registration_error env d d1 ds' cerr _ hK hT
    refine ⟨⟨fun _ => hlt, fun _ => by rw [hmain, hreg]⟩, fun _ => ⟨?_, ⟨ps, [], []⟩,
      ⟨qs, [], []⟩, hex, ?_⟩⟩
    · rw [hmain, hreg, ← hrest]
      rfl
    · rw [hmain, hreg]
  · refine ⟨⟨fun hexit => absurd hexit ?_, fun h => absurd h hlt⟩, fun h => absurd h hlt⟩
    cases hsolve : solve
        (env.computeCorrespondancePair (env.EstimateNormals (env.ReadPointCloud d))
          (env.EstimateNormals (env.ReadPointCloud d1)))
        (env.EstimateNormals (env.ReadPointCloud d))
        (env.EstimateNormals (env.ReadPointCloud d1)) with
    | none =>
      have hT : env.fastGlobalRegistration
          (env.computeCorrespondancePair (env.EstimateNormals (env.ReadPointCloud d))
            (env.EstimateNormals (env.ReadPointCloud d1)))
          (env.EstimateNormals (env.ReadPointCloud d))
          (env.EstimateNormals (env.ReadPointCloud d1)) = .error .DegenerateGeometry := by
        rw [hsolver, registerRigid, if_neg hlt, hsolve]
      obtain ⟨ps, qs, -, hreg⟩ := registration_error env d d1 ds' cerr _ hK hT
      rw [hmain, hreg]
      simp
    | some T =>
      have hT : env.fastGlobalRegistration
          (env.computeCorrespondancePair (env.EstimateNormals (env.ReadPointCloud d))
            (env.EstimateNormals (env.ReadPointCloud d1)))
          (env.EstimateNormals (env.ReadPointCloud d))
          (env.EstimateNormals (env.ReadPointCloud d1)) = .ok T := by
        rw [hsolver, registerRigid, if_neg hlt, hsolve]
      obtain ⟨ps, qs, qt, -, -, -, hreg⟩ := registration_ok env d d1 ds' cerr T hK hT
      rw [hmain, hreg]
      simp

/-- Claim C2 in the test run with one correspondence. -/
theorem insufficient_correspondences_iff_witness :
    testEnvFewPairs.fastGlobalRegistration =
      registerRigid (fun _ _ _ => some (translation (-5) (-5) (-5))) ∧
    loadModel testEnvFewPairs (main testEnvFewPairs ["a.ply", "b.ply"]).read =
      triangle 0 :: triangle 5 :: [] ∧
    InRange (testEnvFewPairs.computeCorrespondancePair (triangle 0) (triangle 5))
      (triangle 0) (triangle 5) ∧
    ((main testEnvFewPairs ["a.ply", "b.ply"]).exit = .uncaught .InsufficientCorrespondences ↔
      (testEnvFewPairs.computeCorrespondancePair (triangle 0) (triangle 5)).length < 3) ∧
    ((testEnvFewPairs.computeCorrespondancePair (triangle 0) (triangle 5)).length < 3 →
      (main testEnvFewPairs ["a.ply", "b.ply"]).model = triangle 0 :: triangle 5 :: [] ∧
      ∃ c0 c1,
        exportCorrespondences (testEnvFewPairs.computeCorrespondancePair (triangle 0) (triangle 5))
          (triangle 0) (triangle 5) = some (c0, c1) ∧
        (main testEnvFewPairs ["a.ply", "b.ply"]).written =
          [(output_path testEnvFewPairs ++ "Corr_0.ply", c0),
            (output_path testEnvFewPairs ++ "Corr_1.ply", c1)]) :=
  ⟨rfl, by decide, by decide,
    insufficient_correspondences_iff testEnvFewPairs ["a.ply", "b.ply"]
      (fun _ _ _ => some (translation (-5) (-5) (-5))) (triangle 0) (triangle 5) []
      rfl (by decide) (by decide)⟩


/-! ## The file-extension check -/

/-- Claim C5 fails on the code. The name `abc` has three characters and does
not end with `.ply`; `find` answers `npos`, and `size() - 4` wraps around to the
same value, so the check does not report "Unknown file extension.": in
argument mode and in interactive mode the name goes on to the file-existence
check and is loaded. -/
theorem extension_check_accepts_three_characters :
    endsWithPly "abc" = false ∧
    find "abc" ".ply" = npos ∧
    size_t_sub (size "abc") 4 = npos ∧
    unknownFileExtension "abc" = false ∧
    (main testEnv ["abc", "b.ply"]).read = ["abc", "b.ply"] ∧
    (main testEnv ["abc", "b.ply"]).cerr = [] ∧
    (main { testEnv with cin := ["abc", "b.ply", "done"] } []).read = ["abc", "b.ply"] ∧
    (main { testEnv with cin := ["abc", "b.ply", "done"] } []).cerr = [] := by
  refine ⟨by decide, by decide, by decide, by decide, by decide, by decide, by decide, by decide⟩

/-- Claim C6 fails on the code. The name `a.ply.ply` has nine characters and
ends with `.ply`, but `find` answers the position 1 of the first occurrence and
`size() - 4` is 5, so the check reports "Unknown file extension.": argument
mode stops with `EXIT_FAILURE`, interactive mode skips the name. -/
theorem extension_check_rejects_repeated_extension :
    endsWithPly "a.ply.ply" = true ∧
    4 ≤ size "a.ply.ply" ∧
    find "a.ply.ply" ".ply" = 1 ∧
    size_t_sub (size "a.ply.ply") 4 = 5 ∧
    unknownFileExtension "a.ply.ply" = true ∧
    (main testEnv ["a.ply.ply", "b.ply"]).exit = .EXIT_FAILURE ∧
    (main testEnv ["a.ply.ply", "b.ply"]).cerr = [.unknownFileExtension (some 1) "a.ply.ply"] ∧
    (main testEnv ["a.ply.ply", "b.ply"]).read = [] ∧
    (main { testEnv with cin := ["a.ply.ply", "a.ply", "b.ply", "done"] } []).cerr =
      [.unknownFileExtension none "a.ply.ply"] ∧
    (main { testEnv with cin := ["a.ply.ply", "a.ply", "b.ply", "done"] } []).read =
      ["a.ply", "b.ply"] := by
  refine ⟨by decide, by decide, by decide, by decide, by decide, by decide, by decide, by decide,
    by decide, by decide⟩

/-! ## Argument mode -/

theorem argumentLoop_ok {α : Type} (env : Env α) (args : List String) (i : Nat)
    (dataName : List String) (h : ∀ a ∈ args, Passes env a) :
    argumentLoop env i args dataName =
      .ok (dataName ++ args.map fun a => input_path env ++ a) := by
  induction args generalizing i dataName with
  | nil => simp [argumentLoop]
  | cons a args ih =>
    have ha := h a (List.mem_cons_self a args)
    simp only [argumentLoop, ha.1, ha.2]
    simp [ih (i + 1) _ (fun b hb => h b (List.mem_cons_of_mem a hb))]

theorem argumentLoop_error {α : Type} (env : Env α) (pre : List String) (bad : String)
    (post : List String) (i : Nat) (dataName : List String)
    (hpre : ∀ a ∈ pre, Passes env a) (hbad : ¬ Passes env bad) :
    argumentLoop env i (pre ++ bad :: post) dataName =
      .error (failureMessage env (i + pre.length + 1) bad) := by
  induction pre generalizing i dataName with
  | nil =>
    simp only [List.nil_append, argumentLoop, failureMessage, List.length_nil, Nat.add_zero]
    by_cases h1 : unknownFileExtension bad = true
    · simp [h1]
    · have h2 : env.is_file_exist (input_path env ++ bad) = false := by
        cases hf : env.is_file_exist (input_path env ++ bad)
        · rfl
        · exact absurd ⟨by simpa using h1, hf⟩ hbad
      simp [h1, h2]
  | cons a pre ih =>
    have ha := hpre a (List.mem_cons_self a pre)
    simp only [List.cons_append, argumentLoop, ha.1, ha.2]
    simp only [Bool.false_eq_true, if_false, Bool.not_true, List.append_eq]
    rw [ih (i + 1) _ (fun b hb => hpre b (List.mem_cons_of_mem a hb))]
    simp only [List.length_cons]
    have : i + 1 + pre.length + 1 = i + (pre.length + 1) + 1 := by omega
    rw [this]

theorem exists_first_failure {α : Type} (env : Env α) (args : List String)
    (h : ¬ ∀ a ∈ args, Passes env a) :
    ∃ pre bad post, args = pre ++ bad :: post ∧ (∀ a ∈ pre, Passes env a) ∧
      ¬ Passes env bad := by
  induction args with
  | nil => exact absurd (fun a ha => by cases ha) h
  | cons a args ih =>
    by_cases ha : Passes env a
    · have h' : ¬ ∀ b ∈ args, Passes env b := fun hall =>
        h (fun b hb => by
          rcases List.mem_cons.mp hb with rfl | hb
          · exact ha
          · exact hall b hb)
      obtain ⟨pre, bad, post, rfl, hpre, hbad⟩ := ih h'
      refine ⟨a :: pre, bad, post, rfl, fun b hb => ?_, hbad⟩
      rcases List.mem_cons.mp hb with rfl | hb
      · exact ha
      · exact hpre b hb
    · exact ⟨[], a, args, rfl, fun b hb => (by cases hb), ha⟩

theorem main_argument_mode {α : Type} [Add α] [Mul α] [Zero α] [One α] (env : Env α)
    (a b : String) (cs : List String) :
    main env (a :: b :: cs) =
      match argumentLoop env 0 (a :: b :: cs) [] with
      | .error msg => ⟨.EXIT_FAILURE, [msg], [], [], []⟩
      | .ok dataName => registration env dataName [] := by
  have hhelp : ¬ (a :: b :: cs = ["-h"] ∨ a :: b :: cs = ["--help"]) := by simp
  unfold main
  rw [if_neg hhelp]
  simp only [readNames]
  cases argumentLoop env 0 (a :: b :: cs) [] <;> rfl

theorem registration_cons_cons {α : Type} [Add α] [Mul α] [Zero α] [One α] (env : Env α)
    (d0 d1 : String) (ds : List String) (cerr : List Message) :
    (registration env (d0 :: d1 :: ds) cerr).read = d0 :: d1 :: ds ∧
      (registration env (d0 :: d1 :: ds) cerr).cerr = cerr := by
  simp only [registration]
  split
  · exact ⟨rfl, rfl⟩
  · split
    · exact ⟨rfl, rfl⟩
    · split <;> exact ⟨rfl, rfl⟩

/-- Claim C7. In argument mode (two arguments or more): if every argument
passes the extension check and the file-existence check, `main` loads exactly
the files `input_path + argv[i]` in argument order, two at least, and does not
print "Inputs not loaded correctly."; `main` reaches the loading stage only in
that case; and when `bad` is the first argument that fails a check, whatever
the arguments `post` after it, `main` returns `EXIT_FAILURE` with the message
for `bad` alone, having read and written no cloud. -/
theorem argument_mode_loads_all_or_nothing {α : Type} [Add α] [Mul α] [Zero α] [One α]
    (env : Env α) (args : List String) (hargc : 2 ≤ args.length) :
    ((∀ a ∈ args, Passes env a) →
      (main env args).read = args.map (fun a => input_path env ++ a) ∧
      2 ≤ (main env args).read.length ∧
      Message.inputsNotLoaded ∉ (main env args).cerr) ∧
    ((main env args).read ≠ [] ↔ ∀ a ∈ args, Passes env a) ∧
    (∀ pre bad post, args = pre ++ bad :: post → (∀ a ∈ pre, Passes env a) →
      ¬ Passes env bad →
      main env args =
        ⟨.EXIT_FAILURE, [failureMessage env (pre.length + 1) bad], [], [], []⟩) := by
  match args, hargc with
  | a :: b :: cs, _ =>
    have hok : (∀ x ∈ a :: b :: cs, Passes env x) →
        main env (a :: b :: cs) =
          registration env ((input_path env ++ a) :: (input_path env ++ b) ::
            cs.map fun x => input_path env ++ x) [] := fun hall => by
      rw [main_argument_mode, argumentLoop_ok env _ 0 [] hall]
      rfl
    have herr : ∀ pre bad post, a :: b :: cs = pre ++ bad :: post →
        (∀ x ∈ pre, Passes env x) → ¬ Passes env bad →
        main env (a :: b :: cs) =
          ⟨.EXIT_FAILURE, [failureMessage env (pre.length + 1) bad], [], [], []⟩ :=
      fun pre bad post hsplit hpre hbad => by
        rw [main_argument_mode, hsplit, argumentLoop_error env pre bad post 0 [] hpre hbad]
        simp
    refine ⟨fun hall => ?_, ⟨fun hread => ?_, fun hall => ?_⟩, herr⟩
    · rw [hok hall]
      obtain ⟨h1, h2⟩ := registration_cons_cons env (input_path env ++ a) (input_path env ++ b)
        (cs.map fun x => input_path env ++ x) []
      rw [h1, h2]
      simp
    · by_contra hnot
      obtain ⟨pre, bad, post, hsplit, hpre, hbad⟩ := exists_first_failure env _ hnot
      rw [herr pre bad post hsplit hpre hbad] at hread
      exact hread rfl
    · rw [hok hall, (registration_cons_cons env _ _ _ []).1]
      simp

/-- Claim C7 in a run whose second argument fails the extension check. -/
theorem argument_mode_loads_all_or_nothing_witness :
    2 ≤ ["a.ply", "b.txt", "c.ply"].length ∧
    ((∀ a ∈ ["a.ply", "b.txt", "c.ply"], Passes testEnv a) →
      (main testEnv ["a.ply", "b.txt", "c.ply"]).read =
        ["a.ply", "b.txt", "c.ply"].map (fun a => input_path testEnv ++ a) ∧
      2 ≤ (main testEnv ["a.ply", "b.txt", "c.ply"]).read.length ∧
      Message.inputsNotLoaded ∉ (main testEnv ["a.ply", "b.txt", "c.ply"]).cerr) ∧
    ((main testEnv ["a.ply", "b.txt", "c.ply"]).read ≠ [] ↔
      ∀ a ∈ ["a.ply", "b.txt", "c.ply"], Passes testEnv a) ∧
    (∀ pre bad post, ["a.ply", "b.txt", "c.ply"] = pre ++ bad :: post →
      (∀ a ∈ pre, Passes testEnv a) → ¬ Passes testEnv bad →
      main testEnv ["a.ply", "b.txt", "c.ply"] =
        ⟨.EXIT_FAILURE, [failureMessage testEnv (pre.length + 1) bad], [], [], []⟩) :=
  ⟨by decide, argument_mode_loads_all_or_nothing testEnv ["a.ply", "b.txt", "c.ply"] (by decide)⟩

end PointCloudRegistration
